import Mathlib

/-!
# Verification of the `vscode-observables` reactive engine against its design spec

Shallow embedding of the parts of the repository that the checked claims
concern:

* `src/observables/src/disposables.ts` — `DisposableStore` and `Disposable`;
* `ManualChangesHandler` (change-summary observer with a pending-update
  counter);
* `obsView` (React view computation with a reentrancy guard);
* `ValueWithChangeEventFromObservable` / `observableFromValueWithChangeEvent`
  and `eventFromObservable`;
* the `ObservableValue.set` contract (modelled from the spec, as the core
  observable implementation is vendored and not part of this repository's
  sources).

Handles and observables are identified by natural-number ids.  Side effects
(calls to a handle's `dispose()`, invocations of a run callback or listener)
are made explicit as event logs returned alongside the updated state.
-/

namespace VSCodeObservables

/-! ## DisposableStore (src/observables/src/disposables.ts)

A disposable handle is identified by a `Nat` id; calling `dispose()` on a
handle is recorded in a log (a `List Nat`, in call order) rather than
performed as a side effect.
-/

/-- State of a `DisposableStore`: the ordered list of registered handles and
the `_isDisposed` flag.  Mirrors the two private fields of the TS class. -/
structure DisposableStore where
  disposables : List Nat
  isDisposed : Bool
  deriving Repr, DecidableEq

/-- A freshly constructed store: no handles, not disposed. -/
def DisposableStore.empty : DisposableStore :=
  { disposables := [], isDisposed := false }

/-- `clear()`: invokes `dispose()` on every registered handle in list order,
then resets the list.  Returns the new store and the log of handle ids whose
`dispose()` was invoked, in order. -/
def DisposableStore.clear (s : DisposableStore) : DisposableStore × List Nat :=
  ({ s with disposables := [] }, s.disposables)

/-- `dispose()`: `this.clear(); this._isDisposed = true;`. -/
def DisposableStore.dispose (s : DisposableStore) : DisposableStore × List Nat :=
  let (s1, log) := s.clear
  ({ s1 with isDisposed := true }, log)

/-- `add(disposable)`: pushes the handle if it is not `undefined`
(`none` models `undefined`), and returns it unchanged. -/
def DisposableStore.add (s : DisposableStore) (t : Option Nat) :
    DisposableStore × Option Nat :=
  match t with
  | some x => ({ s with disposables := s.disposables ++ [x] }, some x)
  | none => (s, none)

/-- Register a whole list of handles through successive `add` calls. -/
def DisposableStore.addAll (s : DisposableStore) (hs : List Nat) :
    DisposableStore :=
  hs.foldl (fun st h => (st.add (some h)).1) s

/-- `Disposable._registerOrDispose(t)`: if `t` is present and the protected
store is already disposed, `t.dispose()` is called immediately (logged);
otherwise `t` is added to the store.  `t` is returned unchanged. -/
def registerOrDispose (s : DisposableStore) (t : Option Nat) :
    DisposableStore × List Nat × Option Nat :=
  match t with
  | none => (s, [], none)
  | some x =>
    if s.isDisposed then (s, [x], some x)
    else ((s.add (some x)).1, [], some x)

theorem DisposableStore.addAll_disposables (hs : List Nat) :
    ∀ s : DisposableStore,
      (s.addAll hs).disposables = s.disposables ++ hs ∧
      (s.addAll hs).isDisposed = s.isDisposed := by
  induction hs with
  | nil => intro s; simp [DisposableStore.addAll]
  | cons h t ih =>
    intro s
    have := ih { s with disposables := s.disposables ++ [h] }
    simpa [DisposableStore.addAll, DisposableStore.add, List.foldl_cons] using this

/-- C4: disposing a store on which the handles `hs` were registered (in that
order, starting from a fresh store) calls each handle's `dispose()` exactly
once per registration, in insertion order, and leaves the store with no
handles. -/
theorem disposableStore_dispose_all_in_order (hs : List Nat) :
    ((DisposableStore.empty.addAll hs).dispose).2 = hs ∧
    ((DisposableStore.empty.addAll hs).dispose).1.disposables = [] ∧
    ((DisposableStore.empty.addAll hs).dispose).1.isDisposed = true := by
  have h := DisposableStore.addAll_disposables hs DisposableStore.empty
  simp [DisposableStore.dispose, DisposableStore.clear, DisposableStore.empty] at h ⊢
  exact h.1

/-- C5 counterexample: after `dispose()`, `add()` still retains the handle —
the store is not permanently empty, and a later `dispose()` releases the
newly added handle.  Concretely, adding handle `7` to a disposed fresh store
leaves the store holding `[7]`, and disposing again releases `7`. -/
theorem disposableStore_add_after_dispose_retains :
    (((DisposableStore.empty.dispose).1.add (some 7)).1.disposables = [7]) ∧
    ((((DisposableStore.empty.dispose).1.add (some 7)).1.dispose).2 = [7]) := by
  decide

/-- C5 (amended): immediately after `dispose()` the store holds no handles and
`isDisposed` is true; but `add()` does not check `isDisposed`: a handle added
afterwards is retained (appended to the list) while `isDisposed` stays true,
and a later `dispose()` or `clear()` releases exactly the handles added since.
So the invariant "isDisposed implies the store holds no handles" holds right
after `dispose()` and is preserved by `dispose`/`clear`, but not by `add`. -/
theorem disposableStore_disposed_then_add (s : DisposableStore) (x : Nat) :
    ((s.dispose).1.disposables = [] ∧ (s.dispose).1.isDisposed = true) ∧
    (((s.dispose).1.add (some x)).1.disposables = [x] ∧
      ((s.dispose).1.add (some x)).1.isDisposed = true) ∧
    ((((s.dispose).1.add (some x)).1.dispose).2 = [x]) := by
  simp [DisposableStore.dispose, DisposableStore.clear, DisposableStore.add]

/-- C6: a second `dispose()` with no intervening `add` invokes no handle's
`dispose()` (empty log, so nothing is released twice), leaves the state
unchanged, and `isDisposed` remains true.  Being a total function, it raises
no exception. -/
theorem disposableStore_dispose_idempotent (s : DisposableStore) :
    (((s.dispose).1.dispose).2 = [] ∧
      ((s.dispose).1.dispose).1 = (s.dispose).1 ∧
      ((s.dispose).1.dispose).1.isDisposed = true) := by
  simp [DisposableStore.dispose, DisposableStore.clear]

/-- C10: `_registerOrDispose(t)` never leaves a present handle unowned: it is
returned unchanged, and either (store already disposed) its `dispose()` is
invoked immediately and the store left untouched, or (store live) it is
appended to the store for later release with no immediate disposal. -/
theorem registerOrDispose_no_leak (s : DisposableStore) (x : Nat) :
    (registerOrDispose s (some x)).2.2 = some x ∧
    (s.isDisposed = true → registerOrDispose s (some x) = (s, [x], some x)) ∧
    (s.isDisposed = false →
      (registerOrDispose s (some x)).1.disposables = s.disposables ++ [x] ∧
      (registerOrDispose s (some x)).2.1 = []) := by
  refine ⟨?_, ?_, ?_⟩
  · cases h : s.isDisposed <;> simp [registerOrDispose, DisposableStore.add, h]
  · intro h; simp [registerOrDispose, h]
  · intro h; simp [registerOrDispose, h, DisposableStore.add]

/-- Witness for C10 at a concrete input: a live store with one handle `3`
receives handle `5`; the handle is returned and retained, nothing disposed. -/
theorem registerOrDispose_no_leak_witness :
    (registerOrDispose { disposables := [3], isDisposed := false } (some 5)).2.2
        = some 5 ∧
    (registerOrDispose { disposables := [3], isDisposed := false }
        (some 5)).1.disposables = [3] ++ [5] :=
  ⟨(registerOrDispose_no_leak { disposables := [3], isDisposed := false } 5).1,
   ((registerOrDispose_no_leak { disposables := [3], isDisposed := false } 5).2.2
      rfl).1⟩

/-! ## ValueWithChangeEventFromObservable (part_005)

`IValueWithChangeEvent` has (at least) two runtime shapes: instances of the
class `ValueWithChangeEventFromObservable` (which carry the wrapped
observable) and any other implementation (carrying an `onDidChange` event and
a current value).  The `instanceof` test in
`observableFromValueWithChangeEvent` corresponds to matching on the
constructor.  Observables are identified by values of an arbitrary type
`Obs`; the result type distinguishes returning an existing observable object
from constructing a fresh one via `observableFromEvent`. -/

/-- An `IValueWithChangeEvent`: either a `ValueWithChangeEventFromObservable`
instance (field `observable`), or some other implementation, abstracted by an
event id and a value getter. -/
inductive ValueWithChangeEvent (Obs α : Type) where
  | fromObservable (observable : Obs)
  | other (eventId : Nat) (getValue : Unit → α)

/-- Result of `observableFromValueWithChangeEvent`: either an already
existing observable object, returned as-is, or a freshly constructed
`observableFromEvent` wrapper. -/
inductive ObservableResult (Obs α : Type) where
  | existing (o : Obs)
  | freshFromEvent (eventId : Nat) (getValue : Unit → α)

/-- `observableFromValueWithChangeEvent(owner, value)`: if `value instanceof
ValueWithChangeEventFromObservable`, return `value.observable`; otherwise
build a fresh observable from the event. -/
def observableFromValueWithChangeEvent {Obs α : Type} (_owner : Nat)
    (value : ValueWithChangeEvent Obs α) : ObservableResult Obs α :=
  match value with
  | .fromObservable o => .existing o
  | .other e g => .freshFromEvent e g

/-- C8: round-trip identity — wrapping an observable in a
`ValueWithChangeEventFromObservable` and converting back yields the very same
observable object (an `existing` result), never a fresh wrapper. -/
theorem observableFromValueWithChangeEvent_roundTrip {Obs α : Type}
    (owner : Nat) (obs : Obs) :
    observableFromValueWithChangeEvent (α := α) owner
        (ValueWithChangeEvent.fromObservable obs)
      = ObservableResult.existing obs :=
  rfl

/-! ### eventFromObservable (part_005): skipping the immediate autorun run

The subscription closure captures `let isFirst = true` and passes to
`autorun` the body `reader => { observable.read(reader); if (isFirst)
{ isFirst = false; } else { listener(); } }`.  Per the reaction contract the
autorun body runs once immediately (inside the subscription call) and once
per subsequent settle.  One execution of the body is a function of the
captured flag, returning the updated flag and how many times `listener()` was
invoked during that run. -/

/-- One run of the autorun body installed by `eventFromObservable`:
if `isFirst` it clears the flag and does not invoke the listener; otherwise
it invokes the listener exactly once. -/
def eventBodyRun (isFirst : Bool) : Bool × Nat :=
  if isFirst then (false, 0) else (isFirst, 1)

/-- The captured `isFirst` flag after `n` runs of the body, starting from
the freshly captured `true`. -/
def eventBodyFlagAfter : Nat → Bool
  | 0 => true
  | n + 1 => (eventBodyRun (eventBodyFlagAfter n)).1

/-- Number of listener invocations during the `n`-th run (1-indexed; run 1 is
the immediate run inside the subscription call). -/
def listenerCallsAtRun (n : Nat) : Nat :=
  (eventBodyRun (eventBodyFlagAfter (n - 1))).2

theorem eventBodyFlagAfter_succ (n : Nat) : eventBodyFlagAfter (n + 1) = false := by
  induction n with
  | zero => rfl
  | succ m ih =>
    show (eventBodyRun (eventBodyFlagAfter (m + 1))).1 = false
    rw [ih]
    rfl

/-- C9: the listener subscribed through
`ValueWithChangeEventFromObservable.onDidChange` is not invoked during the
subscription call (the autorun's immediate first run is skipped via the
`isFirst` flag), and on every subsequent run of the autorun body it is
invoked exactly once. -/
theorem eventFromObservable_skips_first_run :
    listenerCallsAtRun 1 = 0 ∧ ∀ n, 2 ≤ n → listenerCallsAtRun n = 1 := by
  constructor
  · rfl
  · intro n hn
    obtain ⟨m, rfl⟩ : ∃ m, n = m + 2 := ⟨n - 2, by omega⟩
    simp [listenerCallsAtRun, eventBodyRun, eventBodyFlagAfter_succ]

/-- Witness for C9 at concrete runs: run 1 invokes the listener zero times,
run 5 invokes it exactly once. -/
theorem eventFromObservable_skips_first_run_witness :
    listenerCallsAtRun 1 = 0 ∧ listenerCallsAtRun 5 = 1 :=
  ⟨eventFromObservable_skips_first_run.1,
   eventFromObservable_skips_first_run.2 5 (by decide)⟩

/-! ## obsView (part_012): reentrancy guard

The component function reads `state.isRendering`; if set it throws
`"Component is already rendering"` before touching any state.  Otherwise it
sets the flag, increments the global `renderingCount`, runs the body
(`updateProps` + `state.rendering.get()`), and in a `finally` block clears
the flag and decrements the count — whether the body returned normally or
threw.  The body is abstracted as a state transformer (it may mutate the
view state and the global count, e.g. by reentrantly invoking other views)
that either produces a rendered node or throws. -/

/-- The per-instance view state relevant to the guard: the `isRendering`
flag, the `rendered` flag, and the remaining fields abstracted as `σ`. -/
structure ViewState (σ : Type) where
  isRendering : Bool
  rendered : Bool
  rest : σ

/-- One invocation of the component function produced by `obsView`.
`body` models `state.updateProps(props); state.rendering.get()` — an
arbitrary transformer of the view state and the global `renderingCount`
that yields `Except.error` when it throws.  Returns the result (or error),
the state after the `finally` block, and the global count. -/
def obsViewInvoke {σ α : Type}
    (body : ViewState σ × Nat → Except String α × ViewState σ × Nat)
    (s : ViewState σ) (renderingCount : Nat) :
    Except String α × ViewState σ × Nat :=
  if s.isRendering then
    (Except.error "Component is already rendering", s, renderingCount)
  else
    let s1 : ViewState σ := { s with isRendering := true }
    match body (s1, renderingCount + 1) with
    | (Except.ok r, s2, rc2) =>
      (Except.ok r, { s2 with isRendering := false, rendered := true }, rc2 - 1)
    | (Except.error e, s2, rc2) =>
      (Except.error e, { s2 with isRendering := false }, rc2 - 1)

/-- C3: the view computation must not run concurrently with itself.  If the
instance's `isRendering` flag is set, invoking it raises the programming
error `"Component is already rendering"` without running the body (the
result is the same for every body) and without touching the state.  If the
flag is clear, after the invocation returns — normally or with an error
thrown by the body — the flag is clear again. -/
theorem obsView_reentrancy_guard {σ α : Type}
    (body : ViewState σ × Nat → Except String α × ViewState σ × Nat)
    (s : ViewState σ) (rc : Nat) :
    (s.isRendering = true →
      obsViewInvoke body s rc
        = (Except.error "Component is already rendering", s, rc)) ∧
    (s.isRendering = false →
      (obsViewInvoke body s rc).2.1.isRendering = false) := by
  constructor
  · intro h; simp [obsViewInvoke, h]
  · intro h
    simp only [obsViewInvoke, h, Bool.false_eq_true, if_false]
    rcases body ({ s with isRendering := true }, rc + 1) with ⟨res, s2, rc2⟩
    cases res <;> simp

/-- Witness for C3 at concrete inputs: a rendering instance errors out
unchanged, and a non-rendering instance whose body throws still ends with the
flag cleared. -/
theorem obsView_reentrancy_guard_witness :
    (obsViewInvoke (σ := Unit) (α := Unit) (fun p => (Except.ok (), p))
        { isRendering := true, rendered := false, rest := () } 0
      = (Except.error "Component is already rendering",
          { isRendering := true, rendered := false, rest := () }, 0)) ∧
    ((obsViewInvoke (σ := Unit) (α := Unit)
          (fun p => (Except.error "boom", p))
          { isRendering := false, rendered := false, rest := () } 0).2.1.isRendering
      = false) :=
  ⟨(obsView_reentrancy_guard (fun p => (Except.ok (), p))
      { isRendering := true, rendered := false, rest := () } 0).1 rfl,
   (obsView_reentrancy_guard (fun p => (Except.error "boom", p))
      { isRendering := false, rendered := false, rest := () } 0).2 rfl⟩

/-! ## ManualChangesHandler (part_011)

The observer keeps a `Map` from observable to per-dependency data (`_map`),
a queue of recorded data (`_changes`), and a pending-update counter
(`_updateCounter`).  Observables are identified by `Nat` ids; `_map.get(x)!`
may yield `undefined` at runtime when `x` was never registered, modelled as
`Option TData` entries in the queue.  Invocations of the `_run` callback are
logged in `runs` (each entry is the change list passed to one call). -/

/-- A notification delivered to the observer.  `handleChange` carries the
(ignored) change payload. -/
inductive MEvent where
  | beginUpdate (obs : Nat)
  | endUpdate (obs : Nat)
  | handleChange (obs : Nat) (change : Nat)
  | handlePossibleChange (obs : Nat)
  deriving Repr, DecidableEq

/-- State of a `ManualChangesHandler<TData>`, plus the log of `_run`
invocations. -/
structure ManualChangesHandler (TData : Type) where
  map : List (Nat × TData)
  changes : List (Option TData)
  updateCounter : Int
  runs : List (List (Option TData))
  deriving Repr, DecidableEq

/-- `Map.prototype.get`. -/
def mapGet {TData : Type} (m : List (Nat × TData)) (k : Nat) : Option TData :=
  (m.find? (fun p => p.1 == k)).map (fun p => p.2)

/-- `Map.prototype.set`: update in place if the key exists, else append. -/
def mapSet {TData : Type} (m : List (Nat × TData)) (k : Nat) (v : TData) :
    List (Nat × TData) :=
  match m with
  | [] => [(k, v)]
  | (k', v') :: rest =>
    if k' == k then (k, v) :: rest else (k', v') :: mapSet rest k v

/-- A freshly constructed handler. -/
def emptyHandler (TData : Type) : ManualChangesHandler TData :=
  { map := [], changes := [], updateCounter := 0, runs := [] }

/-- A handler whose `_map` already holds `map` (the state after the
corresponding `addDependency` calls), with empty queue, zero counter, and no
`_run` calls yet. -/
def initHandler {TData : Type} (map : List (Nat × TData)) :
    ManualChangesHandler TData :=
  { map := map, changes := [], updateCounter := 0, runs := [] }

/-- `addDependency(observable, data)`: records the data in `_map`.
(The returned disposable and the `addObserver` call on the observable side
are not part of the handler's own state.) -/
def ManualChangesHandler.addDependency {TData : Type}
    (s : ManualChangesHandler TData) (obs : Nat) (data : TData) :
    ManualChangesHandler TData :=
  { s with map := mapSet s.map obs data }

/-- Delivering one notification, exactly as the four methods do:
`beginUpdate` increments the counter and pushes `_map.get(observable)!`;
`endUpdate` decrements and, when the counter reaches zero and the queue is
non-empty, empties the queue and invokes `_run` with it;
`handlePossibleChange` pushes `_map.get(observable)!`;
`handleChange` does nothing (its body is commented out). -/
def stepEvent {TData : Type} (s : ManualChangesHandler TData) :
    MEvent → ManualChangesHandler TData
  | .beginUpdate obs =>
    { s with updateCounter := s.updateCounter + 1,
             changes := s.changes ++ [mapGet s.map obs] }
  | .endUpdate _ =>
    if s.updateCounter - 1 = 0 ∧ 0 < s.changes.length then
      { s with updateCounter := s.updateCounter - 1, changes := [],
               runs := s.runs ++ [s.changes] }
    else
      { s with updateCounter := s.updateCounter - 1 }
  | .handleChange _ _ => s
  | .handlePossibleChange obs =>
    { s with changes := s.changes ++ [mapGet s.map obs] }

/-- Delivering a sequence of notifications in order. -/
def runEvents {TData : Type} (s : ManualChangesHandler TData)
    (evs : List MEvent) : ManualChangesHandler TData :=
  evs.foldl stepEvent s

/-- Number of `beginUpdate` notifications in a sequence. -/
def beginCount : List MEvent → Nat
  | [] => 0
  | .beginUpdate _ :: r => beginCount r + 1
  | _ :: r => beginCount r

/-- Number of `endUpdate` notifications in a sequence. -/
def endCount : List MEvent → Nat
  | [] => 0
  | .endUpdate _ :: r => endCount r + 1
  | _ :: r => endCount r

/-- The map entries pushed onto `_changes` by a sequence of notifications
(one per `beginUpdate` and per `handlePossibleChange`). -/
def pushedChanges {TData : Type} (map : List (Nat × TData)) :
    List MEvent → List (Option TData)
  | [] => []
  | .beginUpdate o :: r => mapGet map o :: pushedChanges map r
  | .handlePossibleChange o :: r => mapGet map o :: pushedChanges map r
  | .endUpdate _ :: r => pushedChanges map r
  | .handleChange _ _ :: r => pushedChanges map r

theorem beginCount_append (l1 l2 : List MEvent) :
    beginCount (l1 ++ l2) = beginCount l1 + beginCount l2 := by
  induction l1 with
  | nil => simp [beginCount]
  | cons e r ih => cases e <;> simp [beginCount, ih] <;> omega

theorem endCount_append (l1 l2 : List MEvent) :
    endCount (l1 ++ l2) = endCount l1 + endCount l2 := by
  induction l1 with
  | nil => simp [endCount]
  | cons e r ih => cases e <;> simp [endCount, ih] <;> omega

theorem counts_le_length (l : List MEvent) :
    beginCount l + endCount l ≤ l.length := by
  induction l with
  | nil => simp [beginCount, endCount]
  | cons e r ih => cases e <;> simp [beginCount, endCount] <;> omega

theorem beginCount_le_pushedChanges {TData : Type}
    (map : List (Nat × TData)) (l : List MEvent) :
    beginCount l ≤ (pushedChanges map l).length := by
  induction l with
  | nil => simp [beginCount, pushedChanges]
  | cons e r ih => cases e <;> simp [beginCount, pushedChanges] <;> omega

theorem pushedChanges_append {TData : Type} (map : List (Nat × TData))
    (l1 l2 : List MEvent) :
    pushedChanges map (l1 ++ l2) = pushedChanges map l1 ++ pushedChanges map l2 := by
  induction l1 with
  | nil => simp [pushedChanges]
  | cons e r ih => cases e <;> simp [pushedChanges, ih]

/-- Key invariant: while the pending-update counter stays strictly positive
after every delivered notification, no `_run` call happens — the map and run
log are untouched, the counter tracks begins minus ends, and the queue
accumulates exactly the pushed entries. -/
theorem runEvents_no_flush {TData : Type} (evs : List MEvent) :
    ∀ s : ManualChangesHandler TData,
      (∀ i, i < evs.length →
        (endCount (evs.take (i + 1)) : Int)
          < s.updateCounter + beginCount (evs.take (i + 1))) →
      (runEvents s evs).map = s.map ∧
      (runEvents s evs).runs = s.runs ∧
      (runEvents s evs).updateCounter
          = s.updateCounter + beginCount evs - endCount evs ∧
      (runEvents s evs).changes = s.changes ++ pushedChanges s.map evs := by
  induction evs with
  | nil =>
    intro s _
    simp [runEvents, beginCount, endCount, pushedChanges]
  | cons e rest ih =>
    intro s h
    have h0 := h 0 (by simp)
    have hstep : runEvents s (e :: rest) = runEvents (stepEvent s e) rest := rfl
    cases e with
    | beginUpdate o =>
      have key := ih { s with updateCounter := s.updateCounter + 1,
                              changes := s.changes ++ [mapGet s.map o] }
        (by
          intro i hi
          have := h (i + 1) (by simpa using Nat.succ_lt_succ hi)
          simp only [List.take_succ_cons, beginCount, endCount] at this ⊢
          omega)
      simp only [hstep, stepEvent] at *
      refine ⟨key.1, key.2.1, ?_, ?_⟩
      · rw [key.2.2.1]
        simp only [beginCount, endCount]
        push_cast
        ring
      · rw [key.2.2.2]
        simp [pushedChanges]
    | endUpdate o =>
      have hc : ¬(s.updateCounter - 1 = 0 ∧ 0 < s.changes.length) := by
        simp only [List.take_succ_cons, List.take_nil, beginCount, endCount] at h0
        intro hand
        push_cast at h0
        omega
      have key := ih { s with updateCounter := s.updateCounter - 1 }
        (by
          intro i hi
          have := h (i + 1) (by simpa using Nat.succ_lt_succ hi)
          simp only [List.take_succ_cons, beginCount, endCount] at this ⊢
          push_cast at this ⊢
          omega)
      simp only [hstep, stepEvent, if_neg hc] at *
      refine ⟨key.1, key.2.1, ?_, ?_⟩
      · rw [key.2.2.1]
        simp only [beginCount, endCount]
        push_cast
        ring
      · rw [key.2.2.2]
        simp [pushedChanges]
    | handleChange o c =>
      have key := ih s
        (by
          intro i hi
          have := h (i + 1) (by simpa using Nat.succ_lt_succ hi)
          simp only [List.take_succ_cons, beginCount, endCount] at this ⊢
          omega)
      simp only [hstep, stepEvent] at *
      refine ⟨key.1, key.2.1, ?_, ?_⟩
      · rw [key.2.2.1]
        simp only [beginCount, endCount]
      · rw [key.2.2.2]
        simp [pushedChanges]
    | handlePossibleChange o =>
      have key := ih { s with changes := s.changes ++ [mapGet s.map o] }
        (by
          intro i hi
          have := h (i + 1) (by simpa using Nat.succ_lt_succ hi)
          simp only [List.take_succ_cons, beginCount, endCount] at this ⊢
          omega)
      simp only [hstep, stepEvent] at *
      refine ⟨key.1, key.2.1, ?_, ?_⟩
      · rw [key.2.2.1]
        simp only [beginCount, endCount]
      · rw [key.2.2.2]
        simp [pushedChanges]

/-- C1: for every balanced delivery sequence of one transaction — `n ≥ 1`
`beginUpdate`s, equally many `endUpdate`s, the pending counter strictly
positive at every proper intermediate point, with arbitrary interleaved
`handleChange`/`handlePossibleChange` notifications — the `_run` callback is
invoked exactly once, with exactly the queued changes, at the final
`endUpdate` (the one returning the counter to zero); the queue is empty
afterwards (it was handed over and reset before `_run` was invoked); and no
`_run` call happens at any earlier notification. -/
theorem manualChangesHandler_runs_once {TData : Type}
    (map : List (Nat × TData)) (evs : List MEvent)
    (hne : 1 ≤ beginCount evs)
    (hbal : beginCount evs = endCount evs)
    (hpos : ∀ i, i < evs.length → 0 < i →
      endCount (evs.take i) < beginCount (evs.take i)) :
    (runEvents (initHandler map) evs).runs = [pushedChanges map evs] ∧
    (runEvents (initHandler map) evs).changes = [] ∧
    (∃ o, evs.getLast? = some (MEvent.endUpdate o)) ∧
    (∀ i, i < evs.length →
      (runEvents (initHandler map) (evs.take i)).runs = []) := by
  have hnil : evs ≠ [] := by
    intro h
    rw [h] at hne
    simp [beginCount] at hne
  obtain ⟨L, e, rfl⟩ : ∃ L e, evs = L ++ [e] :=
    ⟨evs.dropLast, evs.getLast hnil, (List.dropLast_append_getLast hnil).symm⟩
  have hcle := counts_le_length (L ++ [e])
  simp only [List.length_append, List.length_cons, List.length_nil] at hcle
  have hLlen : 0 < L.length := by omega
  have hLpos : endCount L < beginCount L := by
    have := hpos L.length (by simp) hLlen
    rwa [List.take_left] at this
  have hbcApp := beginCount_append L [e]
  have hecApp := endCount_append L [e]
  -- the last event must be an endUpdate, and beginCount L = endCount L + 1
  obtain ⟨o, rfl, hbc⟩ : ∃ o, e = MEvent.endUpdate o ∧
      beginCount L = endCount L + 1 := by
    cases e with
    | beginUpdate o => simp [beginCount, endCount] at hbcApp hecApp; omega
    | endUpdate o =>
      refine ⟨o, rfl, ?_⟩
      simp [beginCount, endCount] at hbcApp hecApp
      omega
    | handleChange o c => simp [beginCount, endCount] at hbcApp hecApp; omega
    | handlePossibleChange o =>
      simp [beginCount, endCount] at hbcApp hecApp; omega
  have key := runEvents_no_flush L (initHandler map)
    (by
      intro i hi
      have := hpos (i + 1) (by simp; omega) (by omega)
      rw [List.take_append_of_le_length (by omega)] at this
      simp only [initHandler]
      omega)
  have hrun : runEvents (initHandler map) (L ++ [MEvent.endUpdate o])
      = stepEvent (runEvents (initHandler map) L) (MEvent.endUpdate o) := by
    simp [runEvents, List.foldl_append]
  have hcounter : (runEvents (initHandler map) L).updateCounter = 1 := by
    rw [key.2.2.1]
    simp only [initHandler]
    omega
  have hchanges : (runEvents (initHandler map) L).changes
      = pushedChanges map L := by
    rw [key.2.2.2]
    simp [initHandler]
  have hchangesLen : 0 < (runEvents (initHandler map) L).changes.length := by
    rw [hchanges]
    have := beginCount_le_pushedChanges map L
    omega
  have hflush : stepEvent (runEvents (initHandler map) L) (MEvent.endUpdate o)
      = { runEvents (initHandler map) L with
            updateCounter := 0, changes := [],
            runs := (runEvents (initHandler map) L).runs
              ++ [(runEvents (initHandler map) L).changes] } := by
    show (if _ ∧ _ then _ else _) = _
    rw [if_pos ⟨by rw [hcounter]; decide, hchangesLen⟩, hcounter]
    norm_num
  have hpushedAll : pushedChanges map (L ++ [MEvent.endUpdate o])
      = pushedChanges map L := by
    rw [pushedChanges_append]
    simp [pushedChanges]
  refine ⟨?_, ?_, ⟨o, ?_⟩, ?_⟩
  · rw [hrun, hflush]
    simp only [hpushedAll, hchanges]
    rw [key.2.1]
    simp [initHandler]
  · rw [hrun, hflush]
  · exact List.getLast?_concat L
  · intro i hi
    rcases Nat.eq_zero_or_pos i with h0 | h0
    · rw [h0]
      simp [runEvents, initHandler]
    · have hile : i ≤ L.length := by
        simp only [List.length_append, List.length_cons, List.length_nil] at hi
        omega
      rw [List.take_append_of_le_length hile]
      have keyI := runEvents_no_flush (L.take i) (initHandler map)
        (by
          intro j hj
          simp only [List.length_take] at hj
          have hji : j + 1 ≤ i := by omega
          have := hpos (j + 1) (by simp; omega) (by omega)
          rw [List.take_append_of_le_length (by omega)] at this
          rw [List.take_take, Nat.min_eq_left hji]
          simp only [initHandler]
          omega)
      rw [keyI.2.1]
      rfl

/-- C1 witness: two dependencies with data `5` and `7`; the transaction
delivers begins for both, a possible-change for the first, then the matching
ends.  `_run` is called once with `[5, 7, 5]`, the queue ends empty, the
last notification is an `endUpdate`, and no earlier point saw a `_run`
call. -/
theorem manualChangesHandler_runs_once_witness :
    (runEvents (initHandler [(0, 5), (1, 7)])
        [MEvent.beginUpdate 0, MEvent.beginUpdate 1,
          MEvent.handlePossibleChange 0,
          MEvent.endUpdate 1, MEvent.endUpdate 0]).runs
      = [pushedChanges [(0, 5), (1, 7)]
          [MEvent.beginUpdate 0, MEvent.beginUpdate 1,
            MEvent.handlePossibleChange 0,
            MEvent.endUpdate 1, MEvent.endUpdate 0]] ∧
    (runEvents (initHandler [(0, 5), (1, 7)])
        [MEvent.beginUpdate 0, MEvent.beginUpdate 1,
          MEvent.handlePossibleChange 0,
          MEvent.endUpdate 1, MEvent.endUpdate 0]).changes = [] := by
  have h := manualChangesHandler_runs_once [(0, 5), (1, 7)]
    [MEvent.beginUpdate 0, MEvent.beginUpdate 1,
      MEvent.handlePossibleChange 0,
      MEvent.endUpdate 1, MEvent.endUpdate 0]
    (by decide) (by decide) (by decide)
  exact ⟨h.1, h.2.1⟩

/-- C2 counterexample: `handleChange` records nothing.  With dependencies
`0 ↦ 5` and `1 ↦ 7`, delivering `handleChange` for observable `1` during the
begin phase leaves the handler state completely unchanged, and the summary
passed to `_run` at the end of the transaction is `[5]` — the per-dependency
data `7` of the observable that received `handleChange` does not appear. -/
theorem manualChangesHandler_handleChange_records_nothing :
    (stepEvent
        (stepEvent (initHandler [(0, 5), (1, 7)]) (MEvent.beginUpdate 0))
        (MEvent.handleChange 1 99)
      = stepEvent (initHandler [(0, 5), (1, 7)]) (MEvent.beginUpdate 0)) ∧
    (runEvents (initHandler [(0, 5), (1, 7)])
        [MEvent.beginUpdate 0, MEvent.handleChange 1 99, MEvent.endUpdate 0]).runs
      = [[some 5]] := by
  constructor
  · rfl
  · rfl

/-- C2 (amended): `handleChange` is a no-op (its recording line is commented
out); the per-dependency data of a registered observable is recorded by the
`beginUpdate` (and `handlePossibleChange`) notifications instead, so for an
observable registered via `addDependency` the data still appears in the
change summary passed to the observer's next `_run`. -/
theorem manualChangesHandler_data_recorded_at_begin {TData : Type}
    (d : TData) (m : List (Nat × TData)) (o c : Nat) :
    (∀ s : ManualChangesHandler TData, stepEvent s (MEvent.handleChange o c) = s) ∧
    (runEvents ((initHandler m).addDependency o d)
        [MEvent.beginUpdate o, MEvent.handleChange o c, MEvent.endUpdate o]).runs
      = [[some d]] := by
  constructor
  · intro s; rfl
  · have hget : mapGet (mapSet m o d) o = some d := by
      induction m with
      | nil => simp [mapSet, mapGet, List.find?]
      | cons p rest ih =>
        by_cases hp : p.1 = o
        · simp [mapSet, mapGet, List.find?, hp]
        · simpa [mapSet, mapGet, List.find?, hp] using ih
    simp [runEvents, ManualChangesHandler.addDependency, initHandler,
      stepEvent, hget]

/-! ## Observable Value `set` (modelled from the spec)

The core observable implementation is vendored (the `@vscode/observables`
internals are not among this repository's sources; only the package README,
facade modules and consumers are), so `set` is modelled from the spec's §4.1
contract. -/

/-- Modelled from the spec: an Observable Value owns its current value, an
ordered set of observer references (identified here by `Nat` ids, insertion
order = notification order), and an equality policy used to suppress no-op
writes (`src/observables` core, not present in the sources). -/
structure ObservableValue (α : Type) where
  value : α
  observers : List Nat
  eqPolicy : α → α → Bool

/-- A begin/settle-phase notification emitted toward an observer during
propagation. -/
inductive SetNotification where
  | beginUpdate (observer : Nat)
  | handleChange (observer : Nat)
  | endUpdate (observer : Nat)
  deriving Repr, DecidableEq

/-- Modelled from the spec: `set(newValue, transactionOrNone)` fails silently
(no-op) if `newValue` is equal under the node's equality policy; otherwise it
updates the stored value and begins the two-phase propagation to every
current observer (begin phase, change delivery, settle phase). -/
def ObservableValue.set {α : Type} (o : ObservableValue α) (newValue : α) :
    ObservableValue α × List SetNotification :=
  if o.eqPolicy newValue o.value then (o, [])
  else
    ({ o with value := newValue },
      o.observers.map SetNotification.beginUpdate
        ++ o.observers.map SetNotification.handleChange
        ++ o.observers.map SetNotification.endUpdate)

/-- C7: setting a value equal to the current one under the node's equality
policy is a no-op — the stored value (indeed the whole node) is unchanged and
no begin/settle notification is emitted toward any observer, so no Reaction
can re-run as a consequence. -/
theorem observableValue_set_equal_noop {α : Type} (o : ObservableValue α)
    (newValue : α) (heq : o.eqPolicy newValue o.value = true) :
    o.set newValue = (o, []) := by
  simp [ObservableValue.set, heq]

/-- C7 witness: a node holding `5` with value-equality policy and one
observer; `set 5` leaves the node unchanged and emits no notification. -/
theorem observableValue_set_equal_noop_witness :
    ObservableValue.set
        { value := 5, observers := [0], eqPolicy := fun a b => a == b } 5
      = ({ value := 5, observers := [0], eqPolicy := fun a b => a == b },
          ([] : List SetNotification)) :=
  observableValue_set_equal_noop
    { value := 5, observers := [0], eqPolicy := fun a b => a == b } 5 rfl

end VSCodeObservables
